import Mathlib

/-!
Verification of the odds-devigging / EV engine and the ensemble value-bet
selector of the `ai-sports-edge` repository.

Python floats are modelled as exact rationals (`ℚ`), with the single IEEE
special value `inf` that the code can produce (`float('inf')` in
`devig_odds`) represented explicitly by the `PFloat` type.  A Python
function that can raise (`ZeroDivisionError` from `1 / x`) is modelled as
returning `Except Unit _`; a Python value that can be `None` is modelled
as an `Option`.  Python truthiness tests on numbers (`if x:` is false for
both `None` and `0.0`) are modelled by `pyTruthy` / `pfTruthy`.
-/

/-- Python float value as produced by `devig_odds`: either an ordinary
(finite) number, modelled exactly as a rational, or `float('inf')`. -/
inductive PFloat where
  | fin : ℚ → PFloat
  | inf : PFloat
deriving DecidableEq, Repr

/-- Python truthiness of an optional number: `None` and `0.0` are falsy. -/
def pyTruthy : Option ℚ → Bool
  | none => false
  | some q => decide (q ≠ 0)

/-- Python truthiness of a `PFloat`: `0.0` is falsy, `inf` and every other
number are truthy. -/
def pfTruthy : PFloat → Bool
  | .inf => true
  | .fin q => decide (q ≠ 0)

/-- Result dictionary of `PinnacleScraper.devig_odds`
(`pinnacle_scraper.py`, lines 221-259).  The `fair_draw_odds` and
`fair_draw_prob` entries are `None` exactly when `draw_odds` was falsy. -/
structure FairOdds where
  fair_home_odds : PFloat
  fair_away_odds : PFloat
  fair_draw_odds : Option PFloat
  fair_home_prob : ℚ
  fair_away_prob : ℚ
  fair_draw_prob : Option ℚ
  overround : ℚ
deriving DecidableEq, Repr

/-- Embedding of `PinnacleScraper.devig_odds(home_odds, away_odds, draw_odds=None)`
(`pinnacle_scraper.py`, lines 221-259).  `1 / home_odds` and
`1 / away_odds` raise `ZeroDivisionError` when the divisor is zero
(`Except.error`), as does `home_prob / overround` when `overround` is
zero; `draw_prob = 1 / draw_odds if draw_odds else 0` uses Python
truthiness, so a `None` or zero `draw_odds` contributes nothing. -/
def devig_odds (home_odds away_odds : ℚ) (draw_odds : Option ℚ := none) :
    Except Unit FairOdds :=
  if home_odds = 0 then .error () else
  let home_prob := 1 / home_odds
  if away_odds = 0 then .error () else
  let away_prob := 1 / away_odds
  let draw_prob : ℚ :=
    match draw_odds with
    | some d => if d = 0 then 0 else 1 / d
    | none => 0
  let overround := home_prob + away_prob + draw_prob
  if overround = 0 then .error () else
  let fair_home_prob := home_prob / overround
  let fair_away_prob := away_prob / overround
  let fair_draw_prob := if pyTruthy draw_odds then draw_prob / overround else 0
  let fair_home_odds := if fair_home_prob > 0 then PFloat.fin (1 / fair_home_prob) else PFloat.inf
  let fair_away_odds := if fair_away_prob > 0 then PFloat.fin (1 / fair_away_prob) else PFloat.inf
  let fair_draw_odds := if fair_draw_prob > 0 then PFloat.fin (1 / fair_draw_prob) else PFloat.inf
  .ok
    { fair_home_odds := fair_home_odds
      fair_away_odds := fair_away_odds
      fair_draw_odds := if pyTruthy draw_odds then some fair_draw_odds else none
      fair_home_prob := fair_home_prob
      fair_away_prob := fair_away_prob
      fair_draw_prob := if pyTruthy draw_odds then some fair_draw_prob else none
      overround := overround }

/-- Embedding of `PinnacleScraper.calculate_ev(odds, fair_odds)`
(`pinnacle_scraper.py`, lines 261-286): `implied_prob = 1 / odds` raises
on a zero price (and is otherwise unused), `fair_prob = 1 / fair_odds`
(Python gives `1 / inf = 0.0`), and the result is
`100 * (odds * fair_prob - 1)`. -/
def calculate_ev (odds : ℚ) (fair_odds : PFloat) : Except Unit ℚ :=
  if odds = 0 then .error () else
  match fair_odds with
  | .inf => .ok ((odds * 0 - 1) * 100)
  | .fin q => if q = 0 then .error () else .ok ((odds * (1 / q) - 1) * 100)

/-- One event as consumed by `EVCalculator._match_events`
(`ev_calculator.py`, lines 101-140).  For a Pinnacle event the code reads
`event['home']['name']` / `event['away']['name']`; for a BetMGM event it
reads `event['home_team']['name']` / `event['away_team']['name']`; both
are team-name strings, modelled as lists of characters.  `id` stands for
the remaining identifying payload of the event dictionary. -/
structure Event where
  id : Nat
  home : List Char
  away : List Char
deriving DecidableEq, Repr

/-- One entry of the Pinnacle odds list: a league dictionary whose
`'events'` key holds a list of events (`ev_calculator.py`, lines 115-118). -/
structure PinnacleLeague where
  events : List Event
deriving DecidableEq, Repr

/-- Python's `a in b` on strings: substring containment. -/
def pyIn (a b : List Char) : Bool :=
  decide (a <:+: b)

/-- The team-name test of `_match_events` (`ev_calculator.py`, lines
122-131): both names are lowercased and the pair matches iff each of the
home names is a substring of the other one's counterpart in at least one
direction, for home and away simultaneously. -/
def teamNamesMatch (p b : Event) : Bool :=
  let ph := p.home.map Char.toLower
  let pa := p.away.map Char.toLower
  let bh := b.home.map Char.toLower
  let ba := b.away.map Char.toLower
  (pyIn ph bh || pyIn bh ph) && (pyIn pa ba || pyIn ba pa)

/-- Embedding of `EVCalculator._match_events(pinnacle_odds, betmgm_odds)`
(`ev_calculator.py`, lines 101-140): flatten the Pinnacle leagues into a
single event list, then for each Pinnacle event scan the BetMGM list in
order and append the first BetMGM event whose team names match (`break`
after the first hit).  Matched BetMGM events are not removed from the
candidate list. -/
def match_events (pinnacle_odds : List PinnacleLeague) (betmgm_odds : List Event) :
    List (Event × Event) :=
  let pinnacle_events := pinnacle_odds.flatMap PinnacleLeague.events
  pinnacle_events.filterMap fun p =>
    (betmgm_odds.find? fun b => teamNamesMatch p b).map fun b => (p, b)

/-- Moneyline odds dictionary for one book, as consumed by
`EVCalculator._calculate_ev_bet` (`ev_calculator.py`, lines 192-198):
each of `home_odds`, `away_odds`, `draw_odds` is absent (`dict.get`
returns `None`) or a decimal price. -/
structure MoneylineOdds where
  home_odds : Option ℚ
  away_odds : Option ℚ
  draw_odds : Option ℚ
deriving DecidableEq, Repr

/-- The EV-bet record built by `EVCalculator._calculate_ev_bet`
(`ev_calculator.py`, lines 230-253), restricted to the odds, EV and
bet-selection fields; the passthrough metadata entries (`sport`,
`league`, team names, event ids, `timestamp`) are omitted. -/
structure EVBet where
  pinnacle_home_odds : ℚ
  pinnacle_away_odds : ℚ
  pinnacle_draw_odds : Option ℚ
  betmgm_home_odds : ℚ
  betmgm_away_odds : ℚ
  betmgm_draw_odds : Option ℚ
  fair_home_odds : PFloat
  fair_away_odds : PFloat
  fair_draw_odds : Option PFloat
  home_ev : ℚ
  away_ev : ℚ
  draw_ev : Option ℚ
  best_bet : String
  max_ev : ℚ
deriving DecidableEq, Repr

/-- Embedding of `EVCalculator._calculate_ev_bet(pinnacle_odds, betmgm_odds, ...)`
(`ev_calculator.py`, lines 175-255).  The guard
`if not pinnacle_home or not pinnacle_away or not betmgm_home or not betmgm_away`
uses Python truthiness, so an absent or zero price yields `None` (this
also subsumes the earlier `if not pinnacle_odds or not betmgm_odds`
empty-dictionary guard, whose result is the same `None`).  `draw_ev` is
computed only when `pinnacle_draw`, `betmgm_draw` and
`fair_odds['fair_draw_odds']` are all truthy, and the best-bet selection
`if draw_ev and draw_ev > max_ev` again uses truthiness, so a `draw_ev`
of exactly `0.0` is skipped. -/
def calculate_ev_bet (pinnacle_odds betmgm_odds : MoneylineOdds) :
    Except Unit (Option EVBet) :=
  if ¬ pyTruthy pinnacle_odds.home_odds ∨ ¬ pyTruthy pinnacle_odds.away_odds ∨
      ¬ pyTruthy betmgm_odds.home_odds ∨ ¬ pyTruthy betmgm_odds.away_odds then
    .ok none
  else
    match pinnacle_odds.home_odds, pinnacle_odds.away_odds,
        betmgm_odds.home_odds, betmgm_odds.away_odds with
    | some pinnacle_home, some pinnacle_away, some betmgm_home, some betmgm_away => do
      let fair_odds ← devig_odds pinnacle_home pinnacle_away pinnacle_odds.draw_odds
      let home_ev ← calculate_ev betmgm_home fair_odds.fair_home_odds
      let away_ev ← calculate_ev betmgm_away fair_odds.fair_away_odds
      let draw_ev : Option ℚ ←
        match pinnacle_odds.draw_odds, betmgm_odds.draw_odds, fair_odds.fair_draw_odds with
        | some pinnacle_draw, some betmgm_draw, some fair_draw =>
          if pinnacle_draw ≠ 0 ∧ betmgm_draw ≠ 0 ∧ pfTruthy fair_draw then
            (calculate_ev betmgm_draw fair_draw).map some
          else
            .ok none
        | _, _, _ => .ok none
      let best₁ : String × ℚ := ("home", home_ev)
      let best₂ : String × ℚ := if away_ev > best₁.2 then ("away", away_ev) else best₁
      let best₃ : String × ℚ :=
        match draw_ev with
        | some dv => if dv ≠ 0 ∧ dv > best₂.2 then ("draw", dv) else best₂
        | none => best₂
      .ok (some
        { pinnacle_home_odds := pinnacle_home
          pinnacle_away_odds := pinnacle_away
          pinnacle_draw_odds := pinnacle_odds.draw_odds
          betmgm_home_odds := betmgm_home
          betmgm_away_odds := betmgm_away
          betmgm_draw_odds := betmgm_odds.draw_odds
          fair_home_odds := fair_odds.fair_home_odds
          fair_away_odds := fair_odds.fair_away_odds
          fair_draw_odds := fair_odds.fair_draw_odds
          home_ev := home_ev
          away_ev := away_ev
          draw_ev := draw_ev
          best_bet := best₃.1
          max_ev := best₃.2 })
    | _, _, _, _ => .ok none

/-- Row mode as computed by `DataFrame.mode(axis=1)[0]` in
`Predictor._make_predictions` (`predictor.py`, line 206): the most
frequent value of the row; on ties `mode` lists all modes in sorted
order and `[0]` takes the smallest. `none` corresponds to an empty row. -/
def pandasRowMode (xs : List ℚ) : Option ℚ :=
  (xs.filter fun x => xs.all fun y => xs.count y ≤ xs.count x).min?

/-- Row mean as computed by `DataFrame.mean(axis=1)` in
`Predictor._make_predictions` (`predictor.py`, line 210). -/
def pandasRowMean (xs : List ℚ) : ℚ :=
  xs.sum / xs.length

/-- Embedding of `Predictor._make_predictions(features, models)`
(`predictor.py`, lines 156-212).  Each loaded model either fails for the
whole frame (required feature columns missing, lines 179-182, or
`predict`/`predict_proba` raising, lines 188-198) — modelled as `none`,
contributing neither a `_prediction` nor a `_probability` column — or is
usable and yields per feature-row a discrete prediction and a
positive-class probability, modelled as a function `α → ℚ × ℚ`.  The
feature frame is assumed to carry no pre-existing columns named
`*_prediction` or `*_probability`, so the ensemble columns aggregate
exactly the usable models' outputs: per row, `ensemble_prediction` is the
row mode of the predictions (when at least one prediction column exists)
and `ensemble_probability` the row mean of the probabilities (when
additionally at least one probability column exists). -/
def make_predictions {α : Type} (features : List α)
    (models : List (Option (α → ℚ × ℚ))) : List (α × Option ℚ × Option ℚ) :=
  let usable := models.filterMap id
  features.map fun row =>
    let preds := usable.map fun f => (f row).1
    let probs := usable.map fun f => (f row).2
    if preds.isEmpty then (row, none, none)
    else (row, pandasRowMode preds, if probs.isEmpty then none else some (pandasRowMean probs))

/-- One row of the predictions frame as consumed by
`Predictor.get_value_bets` (`predictor.py`, lines 244-300), restricted
to the columns the function reads.  Modelling the frame as a list of
such rows presumes the `ensemble_probability` column exists; when it is
absent the function returns an empty frame at line 262, for which every
claim about returned rows holds vacuously. -/
structure PredRow where
  status : String
  ensemble_prediction : ℚ
  ensemble_probability : ℚ
  home_implied_probability : ℚ
  away_implied_probability : ℚ
deriving DecidableEq, Repr

/-- One row of the frame returned by `Predictor.get_value_bets`: the
original row plus the four added columns (`predictor.py`, lines 278-295). -/
structure ValueBetRow where
  row : PredRow
  home_value_bet : Bool
  away_value_bet : Bool
  home_value : ℚ
  away_value : ℚ
deriving DecidableEq, Repr

/-- The `home_value_bet` indicator (`predictor.py`, lines 278-282). -/
def home_value_bet_flag (confidence_threshold : ℚ) (r : PredRow) : Bool :=
  decide (r.ensemble_prediction = 1) &&
  decide (r.ensemble_probability > confidence_threshold) &&
  decide (r.home_implied_probability < r.ensemble_probability)

/-- The `away_value_bet` indicator (`predictor.py`, lines 284-288). -/
def away_value_bet_flag (confidence_threshold : ℚ) (r : PredRow) : Bool :=
  decide (r.ensemble_prediction = 0) &&
  decide (r.ensemble_probability < 1 - confidence_threshold) &&
  decide (r.away_implied_probability < 1 - r.ensemble_probability)

/-- Decreasing-lexicographic order on `(home_value, away_value)` used to
model `sort_values(by=['home_value', 'away_value'], ascending=False)`
(`predictor.py`, line 298). -/
def valueSortGe (a b : ValueBetRow) : Prop :=
  b.home_value < a.home_value ∨ (b.home_value = a.home_value ∧ b.away_value ≤ a.away_value)

instance (a b : ValueBetRow) : Decidable (valueSortGe a b) := by
  unfold valueSortGe
  exact inferInstance

/-- Embedding of `Predictor.get_value_bets(predictions, confidence_threshold)`
(`predictor.py`, lines 244-300): keep rows whose `status` is not
`'STATUS_FINAL'`; keep rows passing the two-sided confidence test; add
the two indicator columns; keep rows with at least one indicator set;
add the `home_value` / `away_value` columns; sort by them descending.
The early-return guards for an empty frame, a missing
`ensemble_probability` column and no upcoming games all yield an empty
result, which this pipeline reproduces. -/
def get_value_bets (predictions : List PredRow) (confidence_threshold : ℚ) :
    List ValueBetRow :=
  let upcoming_games := predictions.filter fun r => decide (r.status ≠ "STATUS_FINAL")
  let candidates := upcoming_games.filter fun r =>
    decide (r.ensemble_probability > confidence_threshold) ||
    decide (r.ensemble_probability < 1 - confidence_threshold)
  let flagged := candidates.map fun r =>
    (r, home_value_bet_flag confidence_threshold r, away_value_bet_flag confidence_threshold r)
  let kept := flagged.filter fun x => x.2.1 || x.2.2
  let value_bets := kept.map fun x =>
    { row := x.1
      home_value_bet := x.2.1
      away_value_bet := x.2.2
      home_value := x.1.ensemble_probability - x.1.home_implied_probability
      away_value := (1 - x.1.ensemble_probability) - x.1.away_implied_probability : ValueBetRow }
  List.insertionSort valueSortGe value_bets

/-- C2: the code does not fail fast on a negative price.  At
`devig_odds(-2.0, 1.25)` the function returns normally and reports the
"fair probability" `-5/3`, a silently wrong (negative) result, instead
of rejecting the input with a descriptive error. -/
theorem devig_odds_negative_price_not_rejected :
    (devig_odds (-2) (5/4) none).map FairOdds.fair_home_prob = .ok (-5/3) ∧
      ((-5 : ℚ)/3) < 0 :=
  ⟨by with_unfolding_all rfl, by norm_num⟩

/-- C3: for valid prices (each greater than 1, draw optional) `devig_odds`
succeeds and its fair probabilities (with the draw term read as 0 when no
draw price was supplied) sum to 1 within `1e-9`; in the exact rational
model the sum is exactly 1. -/
theorem devig_odds_probs_sum_to_one (h a : ℚ) (d : Option ℚ)
    (hh : 1 < h) (ha : 1 < a) (hd : ∀ x ∈ d, 1 < x) :
    ∃ fo, devig_odds h a d = .ok fo ∧
      |fo.fair_home_prob + fo.fair_away_prob + fo.fair_draw_prob.getD 0 - 1| ≤ 1/1000000000 := by
  have hh0 : (0:ℚ) < h := lt_trans one_pos hh
  have ha0 : (0:ℚ) < a := lt_trans one_pos ha
  have hhne : h ≠ 0 := ne_of_gt hh0
  have hane : a ≠ 0 := ne_of_gt ha0
  rcases d with _ | x
  · have hovne : 1/h + 1/a + 0 ≠ 0 := by
      have : (0:ℚ) < 1/h + 1/a := by positivity
      rw [add_zero]; exact ne_of_gt this
    unfold devig_odds
    simp only [if_neg hhne, if_neg hane, if_neg hovne]
    refine ⟨_, rfl, ?_⟩
    simp only [pyTruthy, Bool.false_eq_true, if_false, Option.getD_none]
    have key : 1 / h / (1 / h + 1 / a + 0) + 1 / a / (1 / h + 1 / a + 0) + 0 - 1 = 0 := by
      field_simp
    rw [key, abs_zero]
    norm_num
  · have hx : 1 < x := hd x rfl
    have hx0 : (0:ℚ) < x := lt_trans one_pos hx
    have hxne : x ≠ 0 := ne_of_gt hx0
    have hovne : 1/h + 1/a + 1/x ≠ 0 := by
      have : (0:ℚ) < 1/h + 1/a + 1/x := by positivity
      exact ne_of_gt this
    unfold devig_odds
    simp only [if_neg hhne, if_neg hane, if_neg hxne, if_neg hovne]
    refine ⟨_, rfl, ?_⟩
    simp only [pyTruthy, decide_eq_true_eq, if_pos hxne, Option.getD_some]
    have key : 1 / h / (1 / h + 1 / a + 1 / x) + 1 / a / (1 / h + 1 / a + 1 / x)
        + 1 / x / (1 / h + 1 / a + 1 / x) - 1 = 0 := by
      field_simp
      ring
    rw [key, abs_zero]
    norm_num

/-- C3 witness: the spec's concrete scenario `devig_odds(2.10, 1.80)`. -/
theorem devig_odds_probs_sum_to_one_witness :
    (1 : ℚ) < 21/10 ∧ (1 : ℚ) < 9/5 ∧
      ∃ fo, devig_odds (21/10) (9/5) none = .ok fo ∧
        |fo.fair_home_prob + fo.fair_away_prob + fo.fair_draw_prob.getD 0 - 1| ≤ 1/1000000000 :=
  ⟨by norm_num, by norm_num,
    devig_odds_probs_sum_to_one (21/10) (9/5) none (by norm_num) (by norm_num) (by simp)⟩

/-- C4 counterexample: `devig_odds(3.0, 3.0)` has both prices valid finite
decimals greater than 1, yet the returned `overround` is `2/3 < 1`. -/
theorem devig_odds_overround_counterexample :
    (1:ℚ) < 3 ∧ (devig_odds 3 3 none).map FairOdds.overround = .ok (2/3) ∧
      ¬ (1 ≤ (2:ℚ)/3) :=
  ⟨by norm_num, by with_unfolding_all rfl, by norm_num⟩

/-- C4 amended: `overround` is the sum of the supplied prices' implied
probabilities, so it is at least 1 exactly when those implied
probabilities sum to at least 1 (as for a real book quoting with a
margin), not for arbitrary prices greater than 1. -/
theorem devig_odds_overround_ge_one (h a : ℚ) (d : Option ℚ)
    (hh : 1 < h) (ha : 1 < a) (hd : ∀ x ∈ d, 1 < x)
    (hsum : 1 ≤ 1/h + 1/a + d.elim 0 fun x => 1/x) :
    ∃ fo, devig_odds h a d = .ok fo ∧ 1 ≤ fo.overround := by
  have hh0 : (0:ℚ) < h := lt_trans one_pos hh
  have ha0 : (0:ℚ) < a := lt_trans one_pos ha
  have hhne : h ≠ 0 := ne_of_gt hh0
  have hane : a ≠ 0 := ne_of_gt ha0
  rcases d with _ | x
  · have hovne : 1/h + 1/a + 0 ≠ 0 := by
      have : (0:ℚ) < 1/h + 1/a := by positivity
      rw [add_zero]; exact ne_of_gt this
    unfold devig_odds
    simp only [if_neg hhne, if_neg hane, if_neg hovne]
    refine ⟨_, rfl, ?_⟩
    simpa [Option.elim] using hsum
  · have hx : 1 < x := hd x rfl
    have hxne : x ≠ 0 := ne_of_gt (lt_trans one_pos hx)
    have hovne : 1/h + 1/a + 1/x ≠ 0 := by
      have hx0 : (0:ℚ) < x := lt_trans one_pos hx
      have : (0:ℚ) < 1/h + 1/a + 1/x := by positivity
      exact ne_of_gt this
    unfold devig_odds
    simp only [if_neg hhne, if_neg hane, if_neg hxne, if_neg hovne]
    refine ⟨_, rfl, ?_⟩
    simpa [Option.elim] using hsum

/-- C4 amended witness: `devig_odds(2.0, 2.0)`, a zero-margin book, whose
implied probabilities sum to exactly 1. -/
theorem devig_odds_overround_ge_one_witness :
    (1:ℚ) < 2 ∧ (1 ≤ 1/(2:ℚ) + 1/2 + (none : Option ℚ).elim 0 fun x => 1/x) ∧
      ∃ fo, devig_odds 2 2 none = .ok fo ∧ 1 ≤ fo.overround :=
  ⟨by norm_num, by norm_num [Option.elim],
    devig_odds_overround_ge_one 2 2 none (by norm_num) (by norm_num) (by simp)
      (by norm_num [Option.elim])⟩

/-- A filterMap that pairs each input with some partner keeps the inputs
as the first components, so those first components form a sublist of the
input list. -/
lemma map_fst_filterMap_sublist {α β : Type} (f : α → Option (α × β))
    (hf : ∀ p q, f p = some q → q.1 = p) (l : List α) :
    List.Sublist ((l.filterMap f).map Prod.fst) l := by
  induction l with
  | nil => simp
  | cons x xs ih =>
    rw [List.filterMap_cons]
    cases hx : f x with
    | none => exact ih.cons x
    | some q =>
      rw [List.map_cons, hf x q hx]
      exact ih.cons₂ x

/-- Two Pinnacle events with identical team names, and one BetMGM event
matching both, for the C1 counterexample. -/
def c1Pinnacle₁ : Event := { id := 1, home := "lakers".toList, away := "celtics".toList }

/-- Second Pinnacle event of the C1 counterexample. -/
def c1Pinnacle₂ : Event := { id := 2, home := "lakers".toList, away := "celtics".toList }

/-- The single BetMGM event of the C1 counterexample. -/
def c1Betmgm : Event :=
  { id := 10, home := "los angeles lakers".toList, away := "boston celtics".toList }

/-- C1 counterexample: `_match_events` never removes a matched BetMGM
event from the candidate list, so the same BetMGM event is paired with
two distinct Pinnacle events — it is not "consumed" by its first match. -/
theorem match_events_betmgm_reused :
    match_events [{ events := [c1Pinnacle₁, c1Pinnacle₂] }] [c1Betmgm] =
      [(c1Pinnacle₁, c1Betmgm), (c1Pinnacle₂, c1Betmgm)] ∧ c1Pinnacle₁ ≠ c1Pinnacle₂ :=
  ⟨by with_unfolding_all rfl, by decide⟩

/-- C1 amended: only the Pinnacle side of the matching is one-to-one —
when the flattened Pinnacle event list has no duplicates, each Pinnacle
event appears as the first component of at most one returned pair (each
Pinnacle event stops scanning after its first hit), while a BetMGM event
may appear as the second component of several pairs. -/
theorem match_events_pinnacle_at_most_once (pinnacle_odds : List PinnacleLeague)
    (betmgm_odds : List Event)
    (hnd : (pinnacle_odds.flatMap PinnacleLeague.events).Nodup) :
    ((match_events pinnacle_odds betmgm_odds).map Prod.fst).Nodup := by
  refine List.Nodup.sublist ?_ hnd
  unfold match_events
  refine map_fst_filterMap_sublist _ ?_ _
  intro p q hq
  cases hfind : betmgm_odds.find? fun b => teamNamesMatch p b with
  | none => rw [hfind] at hq; simp at hq
  | some b => rw [hfind] at hq; simp at hq; rw [← hq]

/-- C1 amended witness: the counterexample input itself, whose two
Pinnacle events are distinct. -/
theorem match_events_pinnacle_at_most_once_witness :
    (([{ events := [c1Pinnacle₁, c1Pinnacle₂] }] : List PinnacleLeague).flatMap
        PinnacleLeague.events).Nodup ∧
      ((match_events [{ events := [c1Pinnacle₁, c1Pinnacle₂] }] [c1Betmgm]).map
        Prod.fst).Nodup :=
  ⟨by decide, match_events_pinnacle_at_most_once _ _ (by decide)⟩

/-- C5: at Pinnacle prices (2.0, 2.0, 3.0) and BetMGM prices
(2.0, 2.0, 4.0) every side has complete odds data and the draw side
attains the maximum EV (0% against −25% for home and away), yet
`best_bet` is `'home'`: the selection `if draw_ev and draw_ev > max_ev`
treats a draw EV of exactly 0.0 as missing via Python truthiness. -/
theorem calculate_ev_bet_zero_draw_ev_skipped :
    (calculate_ev_bet
        { home_odds := some 2, away_odds := some 2, draw_odds := some 3 }
        { home_odds := some 2, away_odds := some 2, draw_odds := some 4 }).map
      (Option.map fun bet =>
        (bet.best_bet, bet.max_ev, bet.home_ev, bet.away_ev, bet.draw_ev)) =
      .ok (some ("home", -25, -25, -25, some 0)) ∧ ((-25 : ℚ) < 0) :=
  ⟨by with_unfolding_all rfl, by norm_num⟩

/-- C6: whenever any of the four moneyline prices (Pinnacle home/away,
BetMGM home/away) is missing, `_calculate_ev_bet` returns `None` — no
partial EV record is produced and no exception escapes. -/
theorem calculate_ev_bet_missing_price_no_bet (pinnacle_odds betmgm_odds : MoneylineOdds)
    (hmiss : pinnacle_odds.home_odds = none ∨ pinnacle_odds.away_odds = none ∨
      betmgm_odds.home_odds = none ∨ betmgm_odds.away_odds = none) :
    calculate_ev_bet pinnacle_odds betmgm_odds = .ok none := by
  unfold calculate_ev_bet
  rcases hmiss with h | h | h | h <;> rw [if_pos] <;> simp [h, pyTruthy]

/-- C6 witness: a Pinnacle quote missing its away price. -/
theorem calculate_ev_bet_missing_price_no_bet_witness :
    ((({ home_odds := some 2, away_odds := none, draw_odds := none } : MoneylineOdds)).away_odds
        = none ∨ False) ∧
      calculate_ev_bet { home_odds := some 2, away_odds := none, draw_odds := none }
        { home_odds := some 2, away_odds := some 2, draw_odds := none } = .ok none :=
  ⟨Or.inl rfl,
    calculate_ev_bet_missing_price_no_bet _ _ (Or.inr (Or.inl rfl))⟩

/-- Characterization of membership in the frame returned by
`get_value_bets`: every returned row comes from an input row that
survived the status filter, carries the two indicator columns computed
from that row, and passed the at-least-one-indicator filter. -/
lemma mem_get_value_bets (predictions : List PredRow) (t : ℚ) (v : ValueBetRow)
    (hv : v ∈ get_value_bets predictions t) :
    ∃ r, r ∈ predictions ∧ r.status ≠ "STATUS_FINAL" ∧
      (home_value_bet_flag t r || away_value_bet_flag t r) = true ∧
      v = { row := r,
            home_value_bet := home_value_bet_flag t r,
            away_value_bet := away_value_bet_flag t r,
            home_value := r.ensemble_probability - r.home_implied_probability,
            away_value := (1 - r.ensemble_probability) - r.away_implied_probability } := by
  unfold get_value_bets at hv
  rw [(List.perm_insertionSort _ _).mem_iff] at hv
  simp only [List.mem_map, List.mem_filter, List.mem_filter] at hv
  obtain ⟨trip, ⟨⟨r, ⟨⟨hrmem, hstat⟩, _⟩, htrip⟩, hkept⟩, hveq⟩ := hv
  subst htrip
  refine ⟨r, hrmem, ?_, ?_, hveq.symm⟩
  · exact of_decide_eq_true hstat
  · exact hkept

/-- C8: `get_value_bets` never returns a row whose `status` is
`'STATUS_FINAL'` — finished games are filtered out before any value-bet
logic runs. -/
theorem get_value_bets_excludes_final (predictions : List PredRow) (t : ℚ) (v : ValueBetRow)
    (hv : v ∈ get_value_bets predictions t) : v.row.status ≠ "STATUS_FINAL" := by
  obtain ⟨r, _, hstat, _, hveq⟩ := mem_get_value_bets predictions t v hv
  subst hveq
  exact hstat

/-- C7: in every returned row, the home side qualifies only if the
ensemble prediction is 1 and the model probability strictly exceeds the
home market-implied probability, and the away side qualifies only if the
ensemble prediction is 0 and the away model probability `1 - p` strictly
exceeds the away market-implied probability. -/
theorem get_value_bets_edge_and_class (predictions : List PredRow) (t : ℚ) (v : ValueBetRow)
    (hv : v ∈ get_value_bets predictions t) :
    (v.home_value_bet = true → v.row.ensemble_prediction = 1 ∧
      v.row.home_implied_probability < v.row.ensemble_probability) ∧
    (v.away_value_bet = true → v.row.ensemble_prediction = 0 ∧
      v.row.away_implied_probability < 1 - v.row.ensemble_probability) := by
  obtain ⟨r, _, _, _, hveq⟩ := mem_get_value_bets predictions t v hv
  subst hveq
  constructor
  · intro hflag
    simp only [home_value_bet_flag, Bool.and_eq_true, decide_eq_true_eq] at hflag
    exact ⟨hflag.1.1, hflag.2⟩
  · intro hflag
    simp only [away_value_bet_flag, Bool.and_eq_true, decide_eq_true_eq] at hflag
    exact ⟨hflag.1.1, hflag.2⟩

/-- C10: every returned row qualifies on exactly one side — the two
indicators are never both set (home requires ensemble prediction 1, away
requires 0) and at least one of them is set (the final filter keeps only
such rows). -/
theorem get_value_bets_exactly_one_side (predictions : List PredRow) (t : ℚ) (v : ValueBetRow)
    (hv : v ∈ get_value_bets predictions t) :
    (v.home_value_bet = true ∨ v.away_value_bet = true) ∧
      ¬ (v.home_value_bet = true ∧ v.away_value_bet = true) := by
  obtain ⟨r, _, _, hkept, hveq⟩ := mem_get_value_bets predictions t v hv
  subst hveq
  constructor
  · simpa [Bool.or_eq_true] using hkept
  · rintro ⟨hh, ha⟩
    simp only [home_value_bet_flag, Bool.and_eq_true, decide_eq_true_eq] at hh
    simp only [away_value_bet_flag, Bool.and_eq_true, decide_eq_true_eq] at ha
    rw [hh.1.1] at ha
    exact one_ne_zero ha.1.1

/-- Sample prediction row for exercising `get_value_bets`: a scheduled
game with ensemble probability 0.75 against a home implied probability
of 0.40 (the spec's concrete value-bet scenario). -/
def c78SampleRow : PredRow :=
  { status := "STATUS_SCHEDULED", ensemble_prediction := 1, ensemble_probability := 3/4,
    home_implied_probability := 2/5, away_implied_probability := 1/2 }

/-- The row `get_value_bets [c78SampleRow] 0.7` returns. -/
def c78SampleResult : ValueBetRow :=
  { row := c78SampleRow, home_value_bet := true, away_value_bet := false,
    home_value := 7/20, away_value := -(1/4) }

/-- Evaluation of `get_value_bets` on the sample row. -/
lemma get_value_bets_sample_eval :
    get_value_bets [c78SampleRow] (7/10) = [c78SampleResult] := by
  with_unfolding_all rfl

/-- The sample result row is a member of the returned frame. -/
lemma get_value_bets_sample_mem :
    c78SampleResult ∈ get_value_bets [c78SampleRow] (7/10) := by
  rw [get_value_bets_sample_eval]
  exact List.mem_singleton_self _

/-- C8 witness: the sample row's returned value bet is not final. -/
theorem get_value_bets_excludes_final_witness :
    c78SampleResult ∈ get_value_bets [c78SampleRow] (7/10) ∧
      c78SampleResult.row.status ≠ "STATUS_FINAL" :=
  ⟨get_value_bets_sample_mem,
    get_value_bets_excludes_final _ _ _ get_value_bets_sample_mem⟩

/-- C7 witness: the sample row's returned value bet satisfies the
edge-and-class conditions. -/
theorem get_value_bets_edge_and_class_witness :
    c78SampleResult ∈ get_value_bets [c78SampleRow] (7/10) ∧
      ((c78SampleResult.home_value_bet = true → c78SampleResult.row.ensemble_prediction = 1 ∧
        c78SampleResult.row.home_implied_probability < c78SampleResult.row.ensemble_probability) ∧
      (c78SampleResult.away_value_bet = true → c78SampleResult.row.ensemble_prediction = 0 ∧
        c78SampleResult.row.away_implied_probability < 1 - c78SampleResult.row.ensemble_probability)) :=
  ⟨get_value_bets_sample_mem,
    get_value_bets_edge_and_class _ _ _ get_value_bets_sample_mem⟩

/-- C10 witness: the sample row's returned value bet qualifies on
exactly one side. -/
theorem get_value_bets_exactly_one_side_witness :
    c78SampleResult ∈ get_value_bets [c78SampleRow] (7/10) ∧
      ((c78SampleResult.home_value_bet = true ∨ c78SampleResult.away_value_bet = true) ∧
        ¬ (c78SampleResult.home_value_bet = true ∧ c78SampleResult.away_value_bet = true)) :=
  ⟨get_value_bets_sample_mem,
    get_value_bets_exactly_one_side _ _ _ get_value_bets_sample_mem⟩

/-- Mode of a one-entry row is that entry. -/
lemma pandasRowMode_singleton (x : ℚ) : pandasRowMode [x] = some x := by
  simp [pandasRowMode]

/-- Mean of a one-entry row is that entry. -/
lemma pandasRowMean_singleton (x : ℚ) : pandasRowMean [x] = x := by
  simp [pandasRowMean]

/-- C9: when exactly one model is usable, `_make_predictions` gives every
feature row an ensemble prediction equal to that model's discrete
prediction and an ensemble probability equal to that model's probability
(mode and mean of a single column are the column itself). -/
theorem make_predictions_single_model {α : Type} (features : List α)
    (models : List (Option (α → ℚ × ℚ))) (f : α → ℚ × ℚ)
    (hone : models.filterMap id = [f]) :
    make_predictions features models =
      features.map fun row => (row, some (f row).1, some (f row).2) := by
  unfold make_predictions
  rw [hone]
  refine List.map_congr_left ?_
  intro row _
  simp [pandasRowMode_singleton, pandasRowMean_singleton]

/-- A concrete single usable model for the C9 witness. -/
def c9Model : ℚ → ℚ × ℚ := fun x => (1, x)

/-- C9 witness: one failed model and one usable model over a one-row
feature frame. -/
theorem make_predictions_single_model_witness :
    ([none, some c9Model] : List (Option (ℚ → ℚ × ℚ))).filterMap id = [c9Model] ∧
      make_predictions [(3:ℚ)] [none, some c9Model] =
        [(3:ℚ)].map fun row => (row, some (c9Model row).1, some (c9Model row).2) :=
  ⟨rfl, make_predictions_single_model _ _ _ rfl⟩
